import Mathlib

/-
Shallow embedding of the trace-driven MESI cache simulator with a
false-sharing detector (source: sim.py).  Python integers are modelled as
Nat (addresses, cores, counters) or Int where the source uses the -1
sentinel (tags, last_writer_core); Python sets of core ids are Finset Nat;
the optional CSV logger is a pure record accumulator.
-/

set_option maxRecDepth 4000

inductive MESI where
  | I | S | E | M
deriving DecidableEq, Repr, Inhabited

/-- Per-line coherence plus detector state (class CacheLine). -/
structure CacheLine where
  tag : Int := -1
  state : MESI := MESI.I
  owner : Option Nat := none
  sharers : Finset Nat := ∅
  last_writer_core : Int := -1
  last_word : Nat := 0
  fs_conf : Nat := 0
  fs_suspect : Bool := false
deriving DecidableEq

def CacheLine.init : CacheLine := {}

instance : Inhabited CacheLine := ⟨CacheLine.init⟩

/-- Simulation parameters (class Config), with the source's defaults. -/
structure Config where
  line_bytes : Nat := 64
  sets : Nat := 64
  assoc : Nat := 8
  word_bytes : Nat := 4
  fs_threshold : Nat := 2
  false_sharing_fix : Bool := false
  hit_latency : Nat := 4
  miss_latency : Nat := 40
  inv_latency : Nat := 10
deriving DecidableEq

/-- The integer counters of the statistics accumulator (defaultdict in the
source; every key the source touches is a field, all starting at 0). -/
structure Stats where
  instructions : Nat := 0
  hits : Nat := 0
  misses : Nat := 0
  invalidations : Nat := 0
  avoided_invalidations : Nat := 0
  suspect_lines : Nat := 0
  suspect_events : Nat := 0
  stall_cycles : Nat := 0
deriving DecidableEq

/-- One CSV row emitted by Logger.log_suspect. -/
structure LogRecord where
  event_id : Nat
  addr : Int
  core : Nat
  word_idx : Nat
  prev_core : Int
  prev_word : Nat
  fs_conf : Nat
  fs_suspect : Bool
deriving DecidableEq

/-- The event logger (class Logger): when no destination is configured
(enabled = false) every call is a no-op. -/
structure Logger where
  enabled : Bool
  event_id : Nat
  records : List LogRecord
deriving DecidableEq

def Logger.init (enabled : Bool) : Logger := ⟨enabled, 0, []⟩

def log_suspect (logger : Logger) (core : Nat) (line : CacheLine) (word_idx : Nat) : Logger :=
  if logger.enabled = false then logger
  else
    { logger with
      event_id := logger.event_id + 1,
      records := logger.records ++
        [⟨logger.event_id + 1, line.tag, core, word_idx, line.last_writer_core,
          line.last_word, line.fs_conf, line.fs_suspect⟩] }

/-- The set-associative cache: set × way matrix of lines plus one
round-robin replacement cursor per set (class Cache). -/
structure Cache where
  lines : List (List CacheLine)
  repl_idx : List Nat
deriving DecidableEq

def Cache.init (cfg : Config) : Cache :=
  { lines := List.replicate cfg.sets (List.replicate cfg.assoc CacheLine.init),
    repl_idx := List.replicate cfg.sets 0 }

/-- Cache._index_tag: (set index, line address). -/
def index_tag (cfg : Config) (addr : Nat) : Nat × Nat :=
  ((addr / cfg.line_bytes) % cfg.sets, addr / cfg.line_bytes)

/-- Cache._word_idx. -/
def word_index (cfg : Config) (addr : Nat) : Nat :=
  (addr / cfg.word_bytes) % (cfg.line_bytes / cfg.word_bytes)

/-- The linear search of Cache.probe: index of the first way whose line
matches the tag and is not Invalid. -/
def findHit (tag : Int) : List CacheLine → Option Nat
  | [] => none
  | l :: ls =>
    if l.tag = tag ∧ l.state ≠ MESI.I then some 0
    else (findHit tag ls).map (· + 1)

/-- Cache.probe: returns the updated cache, the set index, the way index of
the line handed back to the caller, and the hit flag.  On a miss the victim
at the cursor is reset (tag := new tag, state Invalid, no owner, no
sharers; detector fields untouched) and the cursor advances. -/
def probe (cfg : Config) (c : Cache) (addr : Nat) : Cache × Nat × Nat × Bool :=
  let it := index_tag cfg addr
  let idx := it.1
  let tag : Int := (it.2 : Int)
  let ls := c.lines.getD idx []
  match findHit tag ls with
  | some i => (c, idx, i, true)
  | none =>
    let w := c.repl_idx.getD idx 0
    let victim := ls.getD w CacheLine.init
    let victim' := { victim with tag := tag, state := MESI.I, owner := none,
                                 sharers := (∅ : Finset Nat) }
    ({ lines := c.lines.set idx (ls.set w victim'),
       repl_idx := c.repl_idx.set idx ((c.repl_idx.getD idx 0 + 1) % cfg.assoc) },
     idx, w, false)

/-- Cache._maybe_detect. -/
def maybe_detect (cfg : Config) (line : CacheLine) (core word_idx : Nat)
    (stats : Stats) (logger : Logger) : CacheLine × Stats × Logger :=
  if line.state = MESI.I then (line, stats, logger)
  else if line.last_writer_core ≠ -1 ∧ line.last_writer_core ≠ (core : Int) ∧
          line.last_word ≠ word_idx then
    let line1 := { line with fs_conf := min (line.fs_conf + 1) 3 }
    let line2 := if cfg.fs_threshold ≤ line1.fs_conf ∧ line1.fs_suspect = false
                 then { line1 with fs_suspect := true } else line1
    let stats1 := if cfg.fs_threshold ≤ line1.fs_conf ∧ line1.fs_suspect = false
                  then { stats with suspect_lines := stats.suspect_lines + 1 } else stats
    (line2,
     { stats1 with suspect_events := stats1.suspect_events + 1 },
     log_suspect logger core line2 word_idx)
  else
    ({ line with fs_conf := line.fs_conf - 1 }, stats, logger)

/-- The write-hit arm of Cache.access (source lines 71-85). -/
def access_hit_write (cfg : Config) (line : CacheLine) (core word_idx : Nat)
    (stats : Stats) (logger : Logger) : CacheLine × Stats × Logger :=
  if (line.state = MESI.S ∨ line.state = MESI.E ∨ line.state = MESI.M) ∧
     line.owner ≠ some core then
    let d := maybe_detect cfg line core word_idx stats logger
    let line1 := d.1
    if ¬ (line1.fs_suspect = true ∧ cfg.false_sharing_fix = true ∧
          line1.last_word ≠ word_idx) then
      ({ line1 with sharers := {core}, owner := some core, state := MESI.M },
       { d.2.1 with
         invalidations := d.2.1.invalidations + (line1.sharers \ {core}).card,
         stall_cycles := d.2.1.stall_cycles + cfg.inv_latency },
       d.2.2)
    else
      ({ line1 with owner := some core, state := MESI.M },
       { d.2.1 with
         avoided_invalidations := d.2.1.avoided_invalidations + (line1.sharers \ {core}).card },
       d.2.2)
  else
    ({ line with owner := some core, state := MESI.M }, stats, logger)

/-- The read-hit arm of Cache.access (source lines 86-102). -/
def access_hit_read (cfg : Config) (line : CacheLine) (core word_idx : Nat)
    (stats : Stats) (logger : Logger) : CacheLine × Stats × Logger :=
  if line.state = MESI.M ∧ line.owner ≠ some core then
    let d := maybe_detect cfg line core word_idx stats logger
    let line1 := d.1
    if ¬ (line1.fs_suspect = true ∧ cfg.false_sharing_fix = true ∧
          line1.last_word ≠ word_idx) then
      ({ line1 with
         sharers := (match line1.owner with
                     | some o => {core, o}
                     | none => {core}),
         state := MESI.S },
       { d.2.1 with invalidations := d.2.1.invalidations + 1,
                    stall_cycles := d.2.1.stall_cycles + cfg.inv_latency },
       d.2.2)
    else
      ({ line1 with sharers := insert core line1.sharers, state := MESI.S },
       { d.2.1 with avoided_invalidations := d.2.1.avoided_invalidations + 1 },
       d.2.2)
  else
    let line1 := { line with sharers := insert core line.sharers }
    (if line1.state = MESI.E then { line1 with state := MESI.S } else line1,
     stats, logger)

/-- The miss arm of Cache.access (source lines 104-129). -/
def access_miss (cfg : Config) (line : CacheLine) (core : Nat) (is_write : Bool)
    (word_idx : Nat) (tag : Int) (stats : Stats) (logger : Logger) :
    CacheLine × Stats × Logger :=
  let d := maybe_detect cfg line core word_idx stats logger
  let line1 := d.1
  let stats1 := d.2.1
  if is_write then
    let stats2 :=
      if line1.state ≠ MESI.I ∧ line1.owner.isSome = true ∧ line1.owner ≠ some core then
        if ¬ (line1.fs_suspect = true ∧ cfg.false_sharing_fix = true ∧
              line1.last_word ≠ word_idx) then
          { stats1 with invalidations := stats1.invalidations + 1,
                        stall_cycles := stats1.stall_cycles + cfg.inv_latency }
        else
          { stats1 with avoided_invalidations := stats1.avoided_invalidations + 1 }
      else stats1
    let line2 := { line1 with owner := some core, state := MESI.M,
                              sharers := ({core} : Finset Nat), tag := tag }
    (line2,
     { stats2 with misses := stats2.misses + 1,
                   stall_cycles := stats2.stall_cycles + cfg.miss_latency },
     d.2.2)
  else
    let stats2 :=
      if line1.state ≠ MESI.I ∧ line1.owner.isSome = true ∧ line1.owner ≠ some core then
        if ¬ (line1.fs_suspect = true ∧ cfg.false_sharing_fix = true ∧
              line1.last_word ≠ word_idx) then
          { stats1 with invalidations := stats1.invalidations + 1,
                        stall_cycles := stats1.stall_cycles + cfg.inv_latency }
        else
          { stats1 with avoided_invalidations := stats1.avoided_invalidations + 1 }
      else stats1
    let line2 := { line1 with owner := some core, state := MESI.E,
                              sharers := ({core} : Finset Nat), tag := tag }
    (line2,
     { stats2 with misses := stats2.misses + 1,
                   stall_cycles := stats2.stall_cycles + cfg.miss_latency },
     d.2.2)

/-- The body of Cache.access after the probe: coherence resolution,
per-event statistics, and the trailing detector-metadata update on a write
or when ownership ended at the requester (source lines 69-134). -/
def accessLine (cfg : Config) (line : CacheLine) (core : Nat) (is_write : Bool)
    (word_idx : Nat) (tag : Int) (hit : Bool) (stats : Stats) (logger : Logger) :
    CacheLine × Stats × Logger :=
  let r :=
    if hit then
      let r0 := if is_write then access_hit_write cfg line core word_idx stats logger
                else access_hit_read cfg line core word_idx stats logger
      (r0.1, { r0.2.1 with hits := r0.2.1.hits + 1 }, r0.2.2)
    else
      access_miss cfg line core is_write word_idx tag stats logger
  if is_write = true ∨ r.1.owner = some core then
    ({ r.1 with last_writer_core := (core : Int), last_word := word_idx },
     r.2.1, r.2.2)
  else
    r

/-- Cache.access: probe, run the per-line logic on the probed way, write the
mutated line back into the matrix. -/
def access (cfg : Config) (c : Cache) (core : Nat) (is_write : Bool) (addr : Nat)
    (stats : Stats) (logger : Logger) : Cache × Stats × Logger :=
  let word_idx := word_index cfg addr
  let p := probe cfg c addr
  let c1 := p.1
  let idx := p.2.1
  let w := p.2.2.1
  let hit := p.2.2.2
  let line := (c1.lines.getD idx []).getD w CacheLine.init
  let r := accessLine cfg line core is_write word_idx ((index_tag cfg addr).2 : Int)
             hit stats logger
  ({ c1 with lines := c1.lines.set idx ((c1.lines.getD idx []).set w r.1) },
   r.2.1, r.2.2)

/-
Character-level models of the Python string operations run_trace uses
(str.strip, str.split, str.upper, str.startswith, int parsing), written as
structural recursions over the character list of the line.
-/

def stripChars (l : List Char) : List Char :=
  ((l.dropWhile Char.isWhitespace).reverse.dropWhile Char.isWhitespace).reverse

/-- str.split() with no argument: tokens separated by whitespace runs. -/
def splitWSAux : List Char → List Char → List (List Char)
  | [], acc => if acc = [] then [] else [acc.reverse]
  | c :: cs, acc =>
    if Char.isWhitespace c then
      if acc = [] then splitWSAux cs [] else acc.reverse :: splitWSAux cs []
    else splitWSAux cs (c :: acc)

def splitWS (l : List Char) : List (List Char) := splitWSAux l []

def digitVal (c : Char) : Option Nat :=
  if c.isDigit then some (c.toNat - 48) else none

def decToNatAux : List Char → Nat → Option Nat
  | [], n => some n
  | c :: cs, n =>
    match digitVal c with
    | none => none
    | some d => decToNatAux cs (n * 10 + d)

/-- Python int(s) on the trace's core field (nonnegative decimal in traces);
none models the ValueError abort. -/
def pyInt (l : List Char) : Option Nat :=
  if l = [] then none else decToNatAux l 0

def hexDigitVal (c : Char) : Option Nat :=
  if c.isDigit then some (c.toNat - 48)
  else if 'a' ≤ c ∧ c ≤ 'f' then some (c.toNat - 87)
  else if 'A' ≤ c ∧ c ≤ 'F' then some (c.toNat - 55)
  else none

def hexToNatAux : List Char → Nat → Option Nat
  | [], n => some n
  | c :: cs, n =>
    match hexDigitVal c with
    | none => none
    | some d => hexToNatAux cs (n * 16 + d)

def hexToNat (l : List Char) : Option Nat :=
  if l = [] then none else hexToNatAux l 0

/-- Python int(s, 0) on the address field: decimal, or hex with a 0x / 0X
prefix; none models the ValueError abort. -/
def pyInt0 (l : List Char) : Option Nat :=
  match l with
  | '0' :: 'x' :: rest => hexToNat rest
  | '0' :: 'X' :: rest => hexToNat rest
  | _ => pyInt l

/-- str.upper on one character (ASCII range, all the trace format uses). -/
def upperChar (c : Char) : Char :=
  if 'a' ≤ c ∧ c ≤ 'z' then Char.ofNat (c.toNat - 32) else c

/-- op.upper().startswith of a single-character pattern. -/
def upperStarts (l : List Char) (c : Char) : Bool :=
  match l with
  | [] => false
  | c0 :: _ => upperChar c0 = c

abbrev SimState := Cache × Stats × Logger

/-- One non-skipped trace record, already split into whitespace tokens:
core = int(parts[0]); op = parts[1].upper(); addr = int(parts[2], 0);
is_write = op.startswith of W.  Errors model the uncaught IndexError /
ValueError aborts of the source. -/
def process_parts (cfg : Config) (st : SimState) (parts : List (List Char)) :
    Except String SimState :=
  match parts[0]? with
  | none => Except.error "IndexError: empty record"
  | some s0 =>
    match pyInt s0 with
    | none => Except.error "ValueError: invalid core field"
    | some core =>
      match parts[1]? with
      | none => Except.error "IndexError: missing op field"
      | some op =>
        match parts[2]? with
        | none => Except.error "IndexError: missing address field"
        | some s2 =>
          match pyInt0 s2 with
          | none => Except.error "ValueError: invalid address field"
          | some addr =>
            let is_write := upperStarts op 'W'
            let r := access cfg st.1 core is_write addr st.2.1 st.2.2
            Except.ok (r.1,
              { r.2.1 with instructions := r.2.1.instructions + 1,
                           stall_cycles := r.2.1.stall_cycles + cfg.hit_latency },
              r.2.2)

/-- One raw trace line of run_trace's loop: blank and comment lines are
skipped, anything else is stripped, split on whitespace and processed. -/
def run_line (cfg : Config) (st : SimState) (raw : String) : Except String SimState :=
  if stripChars raw.data = [] ∨ raw.data.head? = some '#' then Except.ok st
  else process_parts cfg st (splitWS (stripChars raw.data))

def run_lines (cfg : Config) : List String → SimState → Except String SimState
  | [], st => Except.ok st
  | raw :: rest, st =>
    match run_line cfg st raw with
    | Except.error e => Except.error e
    | Except.ok st' => run_lines cfg rest st'

/-- What run_trace hands back: the final counters plus the two derived
floating metrics, modelled exactly over ℚ.  The final cache and logger are
kept so that line-level facts can be stated about finished runs. -/
structure RunResult where
  cache : Cache
  stats : Stats
  ipki : ℚ
  ipc_proxy : ℚ
  logger : Logger

/-- run_trace over an in-memory list of raw trace lines. -/
def run_trace (cfg : Config) (trace : List String) (logEnabled : Bool) :
    Except String RunResult :=
  match run_lines cfg trace (Cache.init cfg, {}, Logger.init logEnabled) with
  | Except.error e => Except.error e
  | Except.ok st =>
    let stats := st.2.1
    let inv := stats.invalidations
    let instr := max stats.instructions 1
    Except.ok
      { cache := st.1, stats := stats,
        ipki := (inv : ℚ) * 1000 / (instr : ℚ),
        ipc_proxy := if stats.stall_cycles ≠ 0
                     then (instr : ℚ) / (stats.stall_cycles : ℚ) else 0,
        logger := st.2.2 }

/-
Concrete configurations used by the claim-level facts below.  cfgA is the
default geometry shrunk to one direct-mapped line so that a second miss
evicts the first line; cfgB additionally arms the detector (threshold 1)
and enables the mitigation.
-/

def cfgA : Config := { sets := 1, assoc := 1 }

def cfgB : Config := { sets := 1, assoc := 1, fs_threshold := 1, false_sharing_fix := true }

/-- Claim C1 (code divergence): core 0 write-installs line address 0, then
core 1 write-misses to line address 1, evicting a victim whose prior
occupant was validly owned by core 0.  The spec charges an invalidation and
inv_latency for this; the code charges neither, because probe resets the
victim's state and owner before access inspects them, so the miss-path
invalidation branch can never fire.  The new line is still installed as the
spec says (owner = requester, Modified, sharers = requester only, new tag). -/
theorem C1_miss_never_charges_invalidation :
    (run_trace cfgA ["0 W 0", "1 W 64"] false).toOption.map
      (fun r => (r.stats.invalidations, r.stats.stall_cycles))
      = some (0, 2 * cfgA.miss_latency + 2 * cfgA.hit_latency) ∧
    (run_trace cfgA ["0 W 0", "1 W 64"] false).toOption.map
      (fun r =>
        (((r.cache.lines.getD 0 []).getD 0 CacheLine.init).tag,
         ((r.cache.lines.getD 0 []).getD 0 CacheLine.init).state,
         ((r.cache.lines.getD 0 []).getD 0 CacheLine.init).owner,
         ((r.cache.lines.getD 0 []).getD 0 CacheLine.init).sharers))
      = some (1, MESI.M, some 1, {1}) := by
  constructor <;> decide

/-- Claim C2 (code divergence): core 0 write-installs line address 0
(recording last_writer_core = 0, last_word = 0), then core 1 write-misses
to line address 1 at word index 1.  The detector history differs in both
writer and word, so the claim requires fs_conf to go to 1 and
suspect_events to 1; the code leaves both at 0 because probe has already
set the victim to Invalid, making maybe_detect a no-op on every miss.  The
persisted history itself (last fields) is visible in the final line. -/
theorem C2_detector_noop_on_miss :
    (run_trace cfgA ["0 W 0", "1 W 68"] false).toOption.map
      (fun r =>
        (r.stats.suspect_events, r.stats.suspect_lines,
         ((r.cache.lines.getD 0 []).getD 0 CacheLine.init).fs_conf,
         ((r.cache.lines.getD 0 []).getD 0 CacheLine.init).fs_suspect))
      = some (0, 0, 0, false) := by
  decide

/-- Claim C3 counterexample: with the default configuration, the first
access to address 0 misses (the set-0 cursor moves 0 to 1); a probe of the
same address then hits, and the cursor stays at 1 instead of advancing to
2 = (1 + 1) % 8 as the claim requires of every probe call. -/
theorem C3_counterexample :
    (let cfg : Config := {}
     let c1 := (access cfg (Cache.init cfg) 0 true 0 {} (Logger.init false)).1
     let p := probe cfg c1 0
     c1.repl_idx.getD 0 0 = 1 ∧ p.2.2.2 = true ∧ p.1.repl_idx.getD 0 0 = 1) := by
  decide

/-- Claim C3 as amended: the replacement cursor of the addressed set
advances by one modulo associativity exactly when the probe misses; a
probe that hits leaves every cursor unchanged. -/
theorem C3_amended (cfg : Config) (c : Cache) (addr : Nat) :
    (probe cfg c addr).1.repl_idx =
      if (probe cfg c addr).2.2.2 then c.repl_idx
      else c.repl_idx.set (index_tag cfg addr).1
             ((c.repl_idx.getD (index_tag cfg addr).1 0 + 1) % cfg.assoc) := by
  unfold probe
  cases h : findHit ((index_tag cfg addr).2 : Int)
      (c.lines.getD (index_tag cfg addr).1 []) <;>
    simp only [h] <;> simp

/-- Claim C5 counterexample: the record 0 X 0 has an unrecognized operation
token, yet the run does not abort: the record is processed as a read (a
miss that installs the line in Exclusive state) and counted as an
instruction. -/
theorem C5_counterexample :
    (run_trace {} ["0 X 0"] false).toOption.map
      (fun r =>
        (r.stats.instructions, r.stats.misses, r.stats.hits,
         ((r.cache.lines.getD 0 []).getD 0 CacheLine.init).state))
      = some (1, 1, 0, MESI.E) := by
  decide

/-- Claim C5 as amended: the operation token is never validated; any
three-token record whose core and address fields parse is processed, with
every token whose uppercased form does not start with W treated as a read.
The run aborts only for a missing field or an unparsable core or address. -/
theorem C5_amended (cfg : Config) (st : SimState) (c op a : List Char)
    (rest : List (List Char)) (core addr : Nat)
    (hc : pyInt c = some core) (ha : pyInt0 a = some addr)
    (hop : upperStarts op 'W' = false) :
    process_parts cfg st (c :: op :: a :: rest) =
      Except.ok
        ((access cfg st.1 core false addr st.2.1 st.2.2).1,
         { (access cfg st.1 core false addr st.2.1 st.2.2).2.1 with
           instructions := (access cfg st.1 core false addr st.2.1 st.2.2).2.1.instructions + 1,
           stall_cycles := (access cfg st.1 core false addr st.2.1 st.2.2).2.1.stall_cycles
             + cfg.hit_latency },
         (access cfg st.1 core false addr st.2.1 st.2.2).2.2) := by
  simp [process_parts, hc, ha, hop]

/-- Witness for the amended C5 statement: the unrecognized record 0 X 0 is
processed as a read by core 0 at address 0. -/
theorem C5_amended_witness :
    process_parts {} (Cache.init {}, {}, Logger.init false)
      [['0'], ['X'], ['0']] =
      Except.ok
        ((access {} (Cache.init {}) 0 false 0 {} (Logger.init false)).1,
         { (access {} (Cache.init {}) 0 false 0 {} (Logger.init false)).2.1 with
           instructions :=
             (access {} (Cache.init {}) 0 false 0 {} (Logger.init false)).2.1.instructions + 1,
           stall_cycles :=
             (access {} (Cache.init {}) 0 false 0 {} (Logger.init false)).2.1.stall_cycles
               + Config.hit_latency {} },
         (access {} (Cache.init {}) 0 false 0 {} (Logger.init false)).2.2) :=
  C5_amended {} (Cache.init {}, {}, Logger.init false) ['0'] ['X'] ['0'] []
    0 0 (by decide) (by decide) (by decide)

/-
maybe_detect touches only the fs fields of the line, the two suspect
counters of the statistics, and the logger.  The following projection facts
let the coherence-path proofs below move hypotheses across the detector
call.
-/

theorem md_state (cfg : Config) (l : CacheLine) (core wi : Nat) (s : Stats) (lg : Logger) :
    (maybe_detect cfg l core wi s lg).1.state = l.state := by
  unfold maybe_detect
  split
  · rfl
  split
  · dsimp only
    split <;> rfl
  · rfl

theorem md_owner (cfg : Config) (l : CacheLine) (core wi : Nat) (s : Stats) (lg : Logger) :
    (maybe_detect cfg l core wi s lg).1.owner = l.owner := by
  unfold maybe_detect
  split
  · rfl
  split
  · dsimp only
    split <;> rfl
  · rfl

theorem md_sharers (cfg : Config) (l : CacheLine) (core wi : Nat) (s : Stats) (lg : Logger) :
    (maybe_detect cfg l core wi s lg).1.sharers = l.sharers := by
  unfold maybe_detect
  split
  · rfl
  split
  · dsimp only
    split <;> rfl
  · rfl

theorem md_tag (cfg : Config) (l : CacheLine) (core wi : Nat) (s : Stats) (lg : Logger) :
    (maybe_detect cfg l core wi s lg).1.tag = l.tag := by
  unfold maybe_detect
  split
  · rfl
  split
  · dsimp only
    split <;> rfl
  · rfl

theorem md_last_word (cfg : Config) (l : CacheLine) (core wi : Nat) (s : Stats) (lg : Logger) :
    (maybe_detect cfg l core wi s lg).1.last_word = l.last_word := by
  unfold maybe_detect
  split
  · rfl
  split
  · dsimp only
    split <;> rfl
  · rfl

theorem md_inv (cfg : Config) (l : CacheLine) (core wi : Nat) (s : Stats) (lg : Logger) :
    (maybe_detect cfg l core wi s lg).2.1.invalidations = s.invalidations := by
  unfold maybe_detect
  split
  · rfl
  split
  · dsimp only
    split <;> rfl
  · rfl

theorem md_avoided (cfg : Config) (l : CacheLine) (core wi : Nat) (s : Stats) (lg : Logger) :
    (maybe_detect cfg l core wi s lg).2.1.avoided_invalidations = s.avoided_invalidations := by
  unfold maybe_detect
  split
  · rfl
  split
  · dsimp only
    split <;> rfl
  · rfl

theorem md_stall (cfg : Config) (l : CacheLine) (core wi : Nat) (s : Stats) (lg : Logger) :
    (maybe_detect cfg l core wi s lg).2.1.stall_cycles = s.stall_cycles := by
  unfold maybe_detect
  split
  · rfl
  split
  · dsimp only
    split <;> rfl
  · rfl

theorem md_hits (cfg : Config) (l : CacheLine) (core wi : Nat) (s : Stats) (lg : Logger) :
    (maybe_detect cfg l core wi s lg).2.1.hits = s.hits := by
  unfold maybe_detect
  split
  · rfl
  split
  · dsimp only
    split <;> rfl
  · rfl

theorem md_misses (cfg : Config) (l : CacheLine) (core wi : Nat) (s : Stats) (lg : Logger) :
    (maybe_detect cfg l core wi s lg).2.1.misses = s.misses := by
  unfold maybe_detect
  split
  · rfl
  split
  · dsimp only
    split <;> rfl
  · rfl

/-- Claim C4 counterexample: under cfgB, core 0 write-installs line 0 and
core 1's conflicting write is suppressed (sharers stay at core 0 only);
core 2's read of word 2 then also meets the suppression rule, and the code
adds the requester to the sharers set: sharers go from core 0 alone to
cores 0 and 2, although the claim requires the pre-event sharers to be left
unchanged by every suppressed event.  The event is indeed suppressed: it
moves avoided_invalidations from 1 to 2 and leaves invalidations at 0. -/
theorem C4_counterexample :
    (run_trace cfgB ["0 W 0", "1 W 4"] false).toOption.map
      (fun r => (((r.cache.lines.getD 0 []).getD 0 CacheLine.init).sharers.card,
                 decide (2 ∈ ((r.cache.lines.getD 0 []).getD 0 CacheLine.init).sharers),
                 r.stats.invalidations, r.stats.avoided_invalidations))
      = some (1, false, 0, 1) ∧
    (run_trace cfgB ["0 W 0", "1 W 4", "2 R 8"] false).toOption.map
      (fun r => (((r.cache.lines.getD 0 []).getD 0 CacheLine.init).sharers.card,
                 decide (2 ∈ ((r.cache.lines.getD 0 []).getD 0 CacheLine.init).sharers),
                 r.stats.invalidations, r.stats.avoided_invalidations))
      = some (2, true, 0, 2) := by
  constructor <;> decide

/-- Claim C4 as amended: on a hit with a conflicting remote holder, when
the suppression rule applies (mitigation on, line suspect after the
detector ran, requester's word differs from the recorded last word), no
invalidation and no inv_latency stall is charged and avoided_invalidations
rises by exactly the count that would have been charged (the size of
sharers minus the requester for a write, 1 for a read); no sharer is
evicted, but the sharers set is not always left unchanged: a suppressed
write hit keeps it as it was, while a suppressed read hit adds the
requester to it. -/
theorem C4_amended (cfg : Config) (line : CacheLine) (core word_idx : Nat) (tag : Int)
    (stats : Stats) (logger : Logger) (is_write : Bool)
    (hW : is_write = true →
      (line.state = MESI.S ∨ line.state = MESI.E ∨ line.state = MESI.M) ∧
        line.owner ≠ some core)
    (hR : is_write = false → line.state = MESI.M ∧ line.owner ≠ some core)
    (hsup : (maybe_detect cfg line core word_idx stats logger).1.fs_suspect = true ∧
            cfg.false_sharing_fix = true ∧
            (maybe_detect cfg line core word_idx stats logger).1.last_word ≠ word_idx) :
    (accessLine cfg line core is_write word_idx tag true stats logger).2.1.invalidations
        = stats.invalidations ∧
    (accessLine cfg line core is_write word_idx tag true stats logger).2.1.stall_cycles
        = stats.stall_cycles ∧
    (accessLine cfg line core is_write word_idx tag true stats logger).2.1.avoided_invalidations
        = stats.avoided_invalidations +
            (if is_write = true then (line.sharers \ {core}).card else 1) ∧
    (accessLine cfg line core is_write word_idx tag true stats logger).1.sharers
        = (if is_write = true then line.sharers else insert core line.sharers) := by
  cases is_write
  · have hconf := hR rfl
    unfold accessLine access_hit_read
    simp only [if_pos hconf, if_neg (not_not_intro hsup), Bool.false_eq_true, if_false,
      if_true, md_sharers, md_inv, md_avoided, md_stall]
    simp [md_owner, md_inv, md_avoided, md_stall, md_sharers, hconf.2]
  · have hconf := hW rfl
    unfold accessLine access_hit_write
    simp only [if_pos hconf, if_neg (not_not_intro hsup)]
    simp [md_owner, md_inv, md_avoided, md_stall, md_sharers]

/-- Witness for the amended C4 statement: a suppressed read hit by core 2
on a suspect Modified line owned by core 1 with sharers = just core 0
charges nothing, avoids one invalidation, and adds core 2 to the sharers. -/
theorem C4_amended_witness :
    (accessLine cfgB ⟨0, MESI.M, some 1, {0}, 1, 1, 1, true⟩ 2 false 2 0 true {}
        (Logger.init false)).2.1.invalidations = 0 ∧
    (accessLine cfgB ⟨0, MESI.M, some 1, {0}, 1, 1, 1, true⟩ 2 false 2 0 true {}
        (Logger.init false)).2.1.stall_cycles = 0 ∧
    (accessLine cfgB ⟨0, MESI.M, some 1, {0}, 1, 1, 1, true⟩ 2 false 2 0 true {}
        (Logger.init false)).2.1.avoided_invalidations = 0 + 1 ∧
    (accessLine cfgB ⟨0, MESI.M, some 1, {0}, 1, 1, 1, true⟩ 2 false 2 0 true {}
        (Logger.init false)).1.sharers = insert 2 ({0} : Finset Nat) :=
  C4_amended cfgB ⟨0, MESI.M, some 1, {0}, 1, 1, 1, true⟩ 2 2 0 {} (Logger.init false)
    false (fun h => nomatch h) (fun _ => by decide) (by decide)

/-
Transport facts: the invalidation counters of an accessLine call are those
of the arm (write hit / read hit / miss) it dispatches to; the trailing
hits increment and detector-metadata update do not touch them.
-/

theorem accessLine_inv (cfg : Config) (l : CacheLine) (core : Nat) (iw : Bool) (wi : Nat)
    (tag : Int) (hit : Bool) (s : Stats) (lg : Logger) :
    (accessLine cfg l core iw wi tag hit s lg).2.1.invalidations =
      (if hit = true then
        (if iw = true then access_hit_write cfg l core wi s lg
         else access_hit_read cfg l core wi s lg).2.1.invalidations
      else (access_miss cfg l core iw wi tag s lg).2.1.invalidations) := by
  unfold accessLine
  cases hit <;> cases iw <;> simp only [Bool.false_eq_true, if_false, if_true] <;>
    split <;> rfl

theorem accessLine_avoided (cfg : Config) (l : CacheLine) (core : Nat) (iw : Bool) (wi : Nat)
    (tag : Int) (hit : Bool) (s : Stats) (lg : Logger) :
    (accessLine cfg l core iw wi tag hit s lg).2.1.avoided_invalidations =
      (if hit = true then
        (if iw = true then access_hit_write cfg l core wi s lg
         else access_hit_read cfg l core wi s lg).2.1.avoided_invalidations
      else (access_miss cfg l core iw wi tag s lg).2.1.avoided_invalidations) := by
  unfold accessLine
  cases hit <;> cases iw <;> simp only [Bool.false_eq_true, if_false, if_true] <;>
    split <;> rfl

/-
In every arm of the coherence resolution at least one of the two
invalidation counters is left unchanged.
-/

theorem hw_one (cfg : Config) (l : CacheLine) (core wi : Nat) (s : Stats) (lg : Logger) :
    (access_hit_write cfg l core wi s lg).2.1.invalidations = s.invalidations ∨
    (access_hit_write cfg l core wi s lg).2.1.avoided_invalidations = s.avoided_invalidations := by
  unfold access_hit_write
  split
  · dsimp only
    split <;>
      first
        | (left; simp [md_inv]; done)
        | (right; simp [md_avoided]; done)
  · left; rfl

theorem hr_one (cfg : Config) (l : CacheLine) (core wi : Nat) (s : Stats) (lg : Logger) :
    (access_hit_read cfg l core wi s lg).2.1.invalidations = s.invalidations ∨
    (access_hit_read cfg l core wi s lg).2.1.avoided_invalidations = s.avoided_invalidations := by
  unfold access_hit_read
  split
  · dsimp only
    split <;>
      first
        | (left; simp [md_inv]; done)
        | (right; simp [md_avoided]; done)
  · left; rfl

theorem miss_one (cfg : Config) (l : CacheLine) (core : Nat) (iw : Bool) (wi : Nat)
    (tag : Int) (s : Stats) (lg : Logger) :
    (access_miss cfg l core iw wi tag s lg).2.1.invalidations = s.invalidations ∨
    (access_miss cfg l core iw wi tag s lg).2.1.avoided_invalidations = s.avoided_invalidations := by
  unfold access_miss
  cases iw <;> simp only [Bool.false_eq_true, if_false, if_true] <;>
    split <;> try split
  all_goals
    first
      | (left; simp [md_inv]; done)
      | (right; simp [md_avoided]; done)

/-- Claim C7 counterexample: under cfgB, after core 0 installs line 0 and
core 1's cross-word write is suppressed, sharers is core 0 alone while the
owner is core 1; core 0's write of word 2 then fires the detector
(suspect_events goes from 1 to 2), is selected for suppression, and the
avoided count that would have been charged is the size of sharers minus the
requester, which is zero: neither invalidations (0 to 0) nor
avoided_invalidations (1 to 1) is incremented, contradicting the claim that
exactly one is incremented by a positive amount on every
detector-triggering event. -/
theorem C7_counterexample :
    (run_trace cfgB ["0 W 0", "1 W 4"] false).toOption.map
      (fun r => (r.stats.suspect_events, r.stats.invalidations,
                 r.stats.avoided_invalidations))
      = some (1, 0, 1) ∧
    (run_trace cfgB ["0 W 0", "1 W 4", "0 W 8"] false).toOption.map
      (fun r => (r.stats.suspect_events, r.stats.invalidations,
                 r.stats.avoided_invalidations))
      = some (2, 0, 1) := by
  constructor <;> decide

/-- Claim C7 as amended: on every access event, at most one of
invalidations and avoided_invalidations changes, never both; the selected
counter's increment, however, can be zero (a write hit whose sharers set
minus the requester is empty), and on misses and conflict-free hits neither
counter changes, so "exactly one is incremented by a positive amount" does
not hold of every detector-triggering event. -/
theorem C7_amended (cfg : Config) (l : CacheLine) (core : Nat) (iw : Bool) (wi : Nat)
    (tag : Int) (hit : Bool) (s : Stats) (lg : Logger) :
    (accessLine cfg l core iw wi tag hit s lg).2.1.invalidations = s.invalidations ∨
    (accessLine cfg l core iw wi tag hit s lg).2.1.avoided_invalidations
      = s.avoided_invalidations := by
  rw [accessLine_inv, accessLine_avoided]
  cases hit
  · simpa using miss_one cfg l core iw wi tag s lg
  · cases iw
    · simpa using hr_one cfg l core wi s lg
    · simpa using hw_one cfg l core wi s lg

/-
Line-level and matrix-level machinery for the ownership invariant.
-/

def lineOK (l : CacheLine) : Prop := l.state = MESI.M → l.owner.isSome = true

instance (l : CacheLine) : Decidable (lineOK l) := by unfold lineOK; infer_instance

theorem lineOK_init : lineOK CacheLine.init := fun hM => nomatch hM

theorem getD_oob {α : Type} (l : List α) (j : Nat) (d : α) (h : l.length ≤ j) :
    l.getD j d = d := by
  induction l generalizing j with
  | nil => rfl
  | cons x xs ih =>
    cases j with
    | zero => simp at h
    | succ j => exact ih j (by simpa using h)

theorem getD_set_cases {α : Type} (l : List α) (i j : Nat) (a d : α) :
    (l.set i a).getD j d = a ∨ (l.set i a).getD j d = l.getD j d := by
  induction l generalizing i j with
  | nil => right; rfl
  | cons x xs ih =>
    cases i with
    | zero =>
      cases j with
      | zero => left; rfl
      | succ j => right; rfl
    | succ i =>
      cases j with
      | zero => right; rfl
      | succ j => exact ih i j

theorem accessLine_state (cfg : Config) (l : CacheLine) (core : Nat) (iw : Bool) (wi : Nat)
    (tag : Int) (hit : Bool) (s : Stats) (lg : Logger) :
    (accessLine cfg l core iw wi tag hit s lg).1.state =
      (if hit = true then
        (if iw = true then access_hit_write cfg l core wi s lg
         else access_hit_read cfg l core wi s lg).1.state
      else (access_miss cfg l core iw wi tag s lg).1.state) := by
  unfold accessLine
  cases hit <;> cases iw <;> simp only [Bool.false_eq_true, if_false, if_true] <;>
    split <;> rfl

theorem accessLine_owner (cfg : Config) (l : CacheLine) (core : Nat) (iw : Bool) (wi : Nat)
    (tag : Int) (hit : Bool) (s : Stats) (lg : Logger) :
    (accessLine cfg l core iw wi tag hit s lg).1.owner =
      (if hit = true then
        (if iw = true then access_hit_write cfg l core wi s lg
         else access_hit_read cfg l core wi s lg).1.owner
      else (access_miss cfg l core iw wi tag s lg).1.owner) := by
  unfold accessLine
  cases hit <;> cases iw <;> simp only [Bool.false_eq_true, if_false, if_true] <;>
    split <;> rfl

theorem hw_owner (cfg : Config) (l : CacheLine) (core wi : Nat) (s : Stats) (lg : Logger) :
    (access_hit_write cfg l core wi s lg).1.owner = some core := by
  unfold access_hit_write
  split
  · dsimp only
    split <;> rfl
  · rfl

theorem miss_owner (cfg : Config) (l : CacheLine) (core : Nat) (iw : Bool) (wi : Nat)
    (tag : Int) (s : Stats) (lg : Logger) :
    (access_miss cfg l core iw wi tag s lg).1.owner = some core := by
  unfold access_miss
  cases iw <;> simp only [Bool.false_eq_true, if_false, if_true] <;> rfl

theorem hr_lineOK (cfg : Config) (l : CacheLine) (core wi : Nat) (s : Stats) (lg : Logger)
    (h : lineOK l) : lineOK (access_hit_read cfg l core wi s lg).1 := by
  unfold access_hit_read
  split
  · dsimp only
    split <;> intro hM <;> simp at hM
  · dsimp only
    split <;> intro hM
    · simp at hM
    · simp only at hM
      exact h hM

theorem accessLine_lineOK (cfg : Config) (l : CacheLine) (core : Nat) (iw : Bool) (wi : Nat)
    (tag : Int) (hit : Bool) (s : Stats) (lg : Logger) (h : lineOK l) :
    lineOK (accessLine cfg l core iw wi tag hit s lg).1 := by
  intro hM
  rw [accessLine_state] at hM
  rw [accessLine_owner]
  cases hit <;> cases iw <;> simp only [Bool.false_eq_true, if_false, if_true] at hM ⊢
  · rw [miss_owner]; rfl
  · rw [miss_owner]; rfl
  · exact hr_lineOK cfg l core wi s lg h hM
  · rw [hw_owner]; rfl

theorem pw_set (L : List (List CacheLine)) (idx w : Nat) (newline : CacheLine)
    (h : ∀ i j, lineOK ((L.getD i []).getD j CacheLine.init))
    (hnew : lineOK newline) :
    ∀ i j, lineOK (((L.set idx ((L.getD idx []).set w newline)).getD i []).getD j
      CacheLine.init) := by
  intro i j
  rcases getD_set_cases L idx i ((L.getD idx []).set w newline) [] with h1 | h1 <;> rw [h1]
  · rcases getD_set_cases (L.getD idx []) w j newline CacheLine.init with h2 | h2 <;> rw [h2]
    · exact hnew
    · exact h idx j
  · exact h i j

theorem probe_pw (cfg : Config) (c : Cache) (addr : Nat)
    (h : ∀ i j, lineOK ((c.lines.getD i []).getD j CacheLine.init)) :
    ∀ i j, lineOK ((((probe cfg c addr).1.lines.getD i []).getD j) CacheLine.init) := by
  intro i j
  unfold probe
  cases hf : findHit ((index_tag cfg addr).2 : Int) (c.lines.getD (index_tag cfg addr).1 [])
  · simp only [hf]
    rcases getD_set_cases c.lines (index_tag cfg addr).1 i _ [] with h1 | h1 <;> rw [h1]
    · rcases getD_set_cases (c.lines.getD (index_tag cfg addr).1 [])
        (c.repl_idx.getD (index_tag cfg addr).1 0) j _ CacheLine.init with h2 | h2 <;> rw [h2]
      · exact fun hM => nomatch hM
      · exact h (index_tag cfg addr).1 j
    · exact h i j
  · simp only [hf]
    exact h i j

theorem access_pw (cfg : Config) (c : Cache) (core : Nat) (iw : Bool) (addr : Nat)
    (s : Stats) (lg : Logger)
    (h : ∀ i j, lineOK ((c.lines.getD i []).getD j CacheLine.init)) :
    ∀ i j, lineOK ((((access cfg c core iw addr s lg).1.lines.getD i []).getD j)
      CacheLine.init) := by
  unfold access
  dsimp only
  exact pw_set _ _ _ _ (probe_pw cfg c addr h)
    (accessLine_lineOK cfg _ core iw _ _ _ s lg (probe_pw cfg c addr h _ _))

/-- Every Modified line of the cache matrix has an owner. -/
def ModOwned (c : Cache) : Prop :=
  ∀ i < c.lines.length, ∀ j < (c.lines.getD i []).length,
    lineOK ((c.lines.getD i []).getD j CacheLine.init)

instance (c : Cache) : Decidable (ModOwned c) := by unfold ModOwned; infer_instance

theorem modOwned_pointwise (c : Cache) (h : ModOwned c) (i j : Nat) :
    lineOK ((c.lines.getD i []).getD j CacheLine.init) := by
  by_cases hi : i < c.lines.length
  · by_cases hj : j < (c.lines.getD i []).length
    · exact h i hi j hj
    · rw [getD_oob _ _ _ (by omega)]
      exact lineOK_init
  · rw [getD_oob c.lines i [] (by omega)]
    exact lineOK_init

/-- Claim C6 counterexample: with one direct-mapped line and mitigation
off, core 0 read-installs address 0 (Exclusive, owner 0), core 1's read
makes the line Shared with sharers cores 0 and 1, and core 0's write then
hits with no conflicting remote holder (core 0 is the owner), setting the
state to Modified without touching sharers: the final line is Modified with
owner core 0 but two sharers (core 1 among them), so sharers is not equal
to the singleton of the owner. -/
theorem C6_counterexample :
    (run_trace cfgA ["0 R 0", "1 R 0", "0 W 0"] false).toOption.map
      (fun r =>
        (((r.cache.lines.getD 0 []).getD 0 CacheLine.init).state,
         ((r.cache.lines.getD 0 []).getD 0 CacheLine.init).owner,
         ((r.cache.lines.getD 0 []).getD 0 CacheLine.init).sharers.card,
         decide (1 ∈ ((r.cache.lines.getD 0 []).getD 0 CacheLine.init).sharers)))
      = some (MESI.M, some 0, 2, true) := by
  decide

/-- Claim C6 as amended: the half of the invariant that does survive every
access is that a Modified line always has an owner; the sharers set of a
Modified line need not be the singleton of the owner (a write hit by the
owner of a Shared line, or a suppressed write hit, leaves foreign sharers
in place). -/
theorem C6_amended (cfg : Config) (c : Cache) (core : Nat) (iw : Bool) (addr : Nat)
    (s : Stats) (lg : Logger) (h : ModOwned c) :
    ModOwned (access cfg c core iw addr s lg).1 := by
  intro i _ j _
  exact access_pw cfg c core iw addr s lg (modOwned_pointwise c h) i j

/-- Witness for the amended C6 statement at the initial one-line cache. -/
theorem C6_amended_witness :
    ModOwned (access cfgA (Cache.init cfgA) 0 true 0 {} (Logger.init false)).1 :=
  C6_amended cfgA (Cache.init cfgA) 0 true 0 {} (Logger.init false) (by decide)

/-
With the mitigation disabled, no branch of the coherence resolution ever
touches avoided_invalidations: the suppression guard contains
false_sharing_fix as a conjunct.
-/

theorem hw_avoided_fix (cfg : Config) (l : CacheLine) (core wi : Nat) (s : Stats)
    (lg : Logger) (hfix : cfg.false_sharing_fix = false) :
    (access_hit_write cfg l core wi s lg).2.1.avoided_invalidations
      = s.avoided_invalidations := by
  unfold access_hit_write
  split
  · dsimp only
    rw [if_pos (by simp [hfix])]
    simp [md_avoided]
  · rfl

theorem hr_avoided_fix (cfg : Config) (l : CacheLine) (core wi : Nat) (s : Stats)
    (lg : Logger) (hfix : cfg.false_sharing_fix = false) :
    (access_hit_read cfg l core wi s lg).2.1.avoided_invalidations
      = s.avoided_invalidations := by
  unfold access_hit_read
  split
  · dsimp only
    rw [if_pos (by simp [hfix])]
    simp [md_avoided]
  · rfl

theorem miss_avoided_fix (cfg : Config) (l : CacheLine) (core : Nat) (iw : Bool) (wi : Nat)
    (tag : Int) (s : Stats) (lg : Logger) (hfix : cfg.false_sharing_fix = false) :
    (access_miss cfg l core iw wi tag s lg).2.1.avoided_invalidations
      = s.avoided_invalidations := by
  unfold access_miss
  cases iw <;> simp only [Bool.false_eq_true, if_false, if_true] <;> split
  · rw [if_pos (by simp [hfix])]
    simp [md_avoided]
  · simp [md_avoided]
  · rw [if_pos (by simp [hfix])]
    simp [md_avoided]
  · simp [md_avoided]

theorem accessLine_avoided_fix (cfg : Config) (l : CacheLine) (core : Nat) (iw : Bool)
    (wi : Nat) (tag : Int) (hit : Bool) (s : Stats) (lg : Logger)
    (hfix : cfg.false_sharing_fix = false) :
    (accessLine cfg l core iw wi tag hit s lg).2.1.avoided_invalidations
      = s.avoided_invalidations := by
  rw [accessLine_avoided]
  cases hit <;> cases iw <;> simp only [Bool.false_eq_true, if_false, if_true]
  · exact miss_avoided_fix cfg l core false wi tag s lg hfix
  · exact miss_avoided_fix cfg l core true wi tag s lg hfix
  · exact hr_avoided_fix cfg l core wi s lg hfix
  · exact hw_avoided_fix cfg l core wi s lg hfix

theorem access_avoided_fix (cfg : Config) (c : Cache) (core : Nat) (iw : Bool) (addr : Nat)
    (s : Stats) (lg : Logger) (hfix : cfg.false_sharing_fix = false) :
    (access cfg c core iw addr s lg).2.1.avoided_invalidations
      = s.avoided_invalidations := by
  unfold access
  dsimp only
  rw [accessLine_avoided_fix _ _ _ _ _ _ _ _ _ hfix]

theorem process_parts_avoided_fix (cfg : Config) (st : SimState)
    (parts : List (List Char)) (hfix : cfg.false_sharing_fix = false) :
    ∀ st', process_parts cfg st parts = Except.ok st' →
      st'.2.1.avoided_invalidations = st.2.1.avoided_invalidations := by
  unfold process_parts
  repeat' split
  all_goals (intro st' h; cases h)
  dsimp only
  rw [access_avoided_fix _ _ _ _ _ _ _ hfix]

theorem run_line_avoided_fix (cfg : Config) (st : SimState) (raw : String)
    (hfix : cfg.false_sharing_fix = false) :
    ∀ st', run_line cfg st raw = Except.ok st' →
      st'.2.1.avoided_invalidations = st.2.1.avoided_invalidations := by
  intro st' h
  unfold run_line at h
  split at h
  · cases h; rfl
  · exact process_parts_avoided_fix cfg st _ hfix st' h

theorem run_lines_avoided_fix (cfg : Config) (hfix : cfg.false_sharing_fix = false) :
    ∀ (trace : List String) (st st' : SimState),
      run_lines cfg trace st = Except.ok st' →
      st'.2.1.avoided_invalidations = st.2.1.avoided_invalidations := by
  intro trace
  induction trace with
  | nil => intro st st' h; cases h; rfl
  | cons raw rest ih =>
    intro st st' h
    unfold run_lines at h
    cases hr : run_line cfg st raw with
    | error e => rw [hr] at h; cases h
    | ok st1 =>
      rw [hr] at h
      rw [ih st1 st' h]
      exact run_line_avoided_fix cfg st raw hfix st1 hr

/-- Claim C8: with the mitigation disabled, every run that finishes
reports avoided_invalidations = 0, for every trace, logging choice and
remaining configuration. -/
theorem C8_confirmed (cfg : Config) (trace : List String) (logE : Bool)
    (hfix : cfg.false_sharing_fix = false) :
    ∀ r, run_trace cfg trace logE = Except.ok r → r.stats.avoided_invalidations = 0 := by
  intro r h
  unfold run_trace at h
  cases hr : run_lines cfg trace (Cache.init cfg, {}, Logger.init logE) with
  | error e => rw [hr] at h; cases h
  | ok st =>
    rw [hr] at h
    cases h
    dsimp only
    exact run_lines_avoided_fix cfg hfix trace _ st hr

/-- Witness for C8 at the default configuration and a one-record trace. -/
theorem C8_confirmed_witness :
    (run_trace {} ["0 W 0"] false).map (fun r => r.stats.avoided_invalidations)
      = Except.ok 0 := by
  have hok : (run_trace {} ["0 W 0"] false).toOption.isSome = true := by decide
  cases hr : run_trace {} ["0 W 0"] false with
  | error e => rw [hr] at hok; simp [Except.toOption] at hok
  | ok r =>
    have := C8_confirmed {} ["0 W 0"] false rfl r hr
    simp [Except.map, this]

/-
The event logger never feeds back into the simulation: neither the line,
nor the statistics, nor any branch condition reads logger state.  The
lemmas below carry that fact from maybe_detect up to run_trace.
-/

theorem md_logger_line (cfg : Config) (l : CacheLine) (core wi : Nat) (s : Stats)
    (lg lg' : Logger) :
    (maybe_detect cfg l core wi s lg').1 = (maybe_detect cfg l core wi s lg).1 := by
  unfold maybe_detect
  by_cases h1 : l.state = MESI.I
  · simp [h1]
  · by_cases h2 : l.last_writer_core ≠ -1 ∧ l.last_writer_core ≠ (core : Int) ∧
        l.last_word ≠ wi
    · simp [h1, h2]
    · simp [h1, h2]

theorem md_logger_stats (cfg : Config) (l : CacheLine) (core wi : Nat) (s : Stats)
    (lg lg' : Logger) :
    (maybe_detect cfg l core wi s lg').2.1 = (maybe_detect cfg l core wi s lg).2.1 := by
  unfold maybe_detect
  by_cases h1 : l.state = MESI.I
  · simp [h1]
  · by_cases h2 : l.last_writer_core ≠ -1 ∧ l.last_writer_core ≠ (core : Int) ∧
        l.last_word ≠ wi
    · simp [h1, h2]
    · simp [h1, h2]

theorem hw_logger (cfg : Config) (l : CacheLine) (core wi : Nat) (s : Stats)
    (lg lg' : Logger) :
    (access_hit_write cfg l core wi s lg').1 = (access_hit_write cfg l core wi s lg).1 ∧
    (access_hit_write cfg l core wi s lg').2.1 = (access_hit_write cfg l core wi s lg).2.1 := by
  unfold access_hit_write
  by_cases hc : (l.state = MESI.S ∨ l.state = MESI.E ∨ l.state = MESI.M) ∧
      l.owner ≠ some core
  · simp only [if_pos hc]
    rw [md_logger_line cfg l core wi s lg lg', md_logger_stats cfg l core wi s lg lg']
    by_cases hs : ((maybe_detect cfg l core wi s lg).1.fs_suspect = true ∧
        cfg.false_sharing_fix = true ∧ (maybe_detect cfg l core wi s lg).1.last_word ≠ wi)
    · rw [if_neg (not_not_intro hs), if_neg (not_not_intro hs)]
      constructor <;> first | rfl | trivial
    · rw [if_pos hs, if_pos hs]
      constructor <;> first | rfl | trivial
  · simp only [if_neg hc]
    constructor <;> first | rfl | trivial

theorem hr_logger (cfg : Config) (l : CacheLine) (core wi : Nat) (s : Stats)
    (lg lg' : Logger) :
    (access_hit_read cfg l core wi s lg').1 = (access_hit_read cfg l core wi s lg).1 ∧
    (access_hit_read cfg l core wi s lg').2.1 = (access_hit_read cfg l core wi s lg).2.1 := by
  unfold access_hit_read
  by_cases hc : l.state = MESI.M ∧ l.owner ≠ some core
  · simp only [if_pos hc]
    rw [md_logger_line cfg l core wi s lg lg', md_logger_stats cfg l core wi s lg lg']
    by_cases hs : ((maybe_detect cfg l core wi s lg).1.fs_suspect = true ∧
        cfg.false_sharing_fix = true ∧ (maybe_detect cfg l core wi s lg).1.last_word ≠ wi)
    · rw [if_neg (not_not_intro hs), if_neg (not_not_intro hs)]
      constructor <;> first | rfl | trivial
    · rw [if_pos hs, if_pos hs]
      constructor <;> first | rfl | trivial
  · simp only [if_neg hc]
    constructor <;> first | rfl | trivial

theorem miss_logger (cfg : Config) (l : CacheLine) (core : Nat) (iw : Bool) (wi : Nat)
    (tag : Int) (s : Stats) (lg lg' : Logger) :
    (access_miss cfg l core iw wi tag s lg').1 = (access_miss cfg l core iw wi tag s lg).1 ∧
    (access_miss cfg l core iw wi tag s lg').2.1
      = (access_miss cfg l core iw wi tag s lg).2.1 := by
  unfold access_miss
  cases iw <;> simp only [Bool.false_eq_true, if_false, if_true] <;>
    rw [md_logger_line cfg l core wi s lg lg', md_logger_stats cfg l core wi s lg lg'] <;>
    (constructor <;> first | rfl | trivial)

theorem accessLine_logger (cfg : Config) (l : CacheLine) (core : Nat) (iw : Bool) (wi : Nat)
    (tag : Int) (hit : Bool) (s : Stats) (lg lg' : Logger) :
    (accessLine cfg l core iw wi tag hit s lg').1
      = (accessLine cfg l core iw wi tag hit s lg).1 ∧
    (accessLine cfg l core iw wi tag hit s lg').2.1
      = (accessLine cfg l core iw wi tag hit s lg).2.1 := by
  unfold accessLine
  cases hit <;> cases iw <;> simp only [Bool.false_eq_true, if_false, if_true]
  · have h1 := (miss_logger cfg l core false wi tag s lg lg').1
    have h2 := (miss_logger cfg l core false wi tag s lg lg').2
    rw [h1, h2]
    split <;> constructor <;> first | rfl | exact h1 | exact h2
  · have h1 := (miss_logger cfg l core true wi tag s lg lg').1
    have h2 := (miss_logger cfg l core true wi tag s lg lg').2
    rw [h1, h2]
    split <;> constructor <;> first | rfl | exact h1 | exact h2
  · have h1 := (hr_logger cfg l core wi s lg lg').1
    have h2 := (hr_logger cfg l core wi s lg lg').2
    rw [h1, h2]
    split <;> constructor <;> first | rfl | exact h1 | exact h2
  · have h1 := (hw_logger cfg l core wi s lg lg').1
    have h2 := (hw_logger cfg l core wi s lg lg').2
    rw [h1, h2]
    split <;> constructor <;> first | rfl | exact h1 | exact h2

theorem access_logger (cfg : Config) (c : Cache) (core : Nat) (iw : Bool) (addr : Nat)
    (s : Stats) (lg lg' : Logger) :
    (access cfg c core iw addr s lg').1 = (access cfg c core iw addr s lg).1 ∧
    (access cfg c core iw addr s lg').2.1 = (access cfg c core iw addr s lg).2.1 := by
  unfold access
  dsimp only
  have h1 := (accessLine_logger cfg
    (((probe cfg c addr).1.lines.getD (probe cfg c addr).2.1 []).getD (probe cfg c addr).2.2.1
      CacheLine.init) core iw (word_index cfg addr) ((index_tag cfg addr).2 : Int)
    (probe cfg c addr).2.2.2 s lg lg').1
  have h2 := (accessLine_logger cfg
    (((probe cfg c addr).1.lines.getD (probe cfg c addr).2.1 []).getD (probe cfg c addr).2.2.1
      CacheLine.init) core iw (word_index cfg addr) ((index_tag cfg addr).2 : Int)
    (probe cfg c addr).2.2.2 s lg lg').2
  rw [h1, h2]
  exact ⟨rfl, rfl⟩

theorem process_parts_logger (cfg : Config) (c : Cache) (s : Stats) (lg lg' : Logger)
    (parts : List (List Char)) :
    (process_parts cfg (c, s, lg') parts).map (fun st => (st.1, st.2.1))
      = (process_parts cfg (c, s, lg) parts).map (fun st => (st.1, st.2.1)) := by
  unfold process_parts
  repeat' split
  all_goals try rfl
  all_goals dsimp only
  all_goals simp only [Except.map]
  all_goals
    (rw [(access_logger cfg c _ _ _ s lg lg').1, (access_logger cfg c _ _ _ s lg lg').2])

theorem run_line_logger (cfg : Config) (c : Cache) (s : Stats) (lg lg' : Logger)
    (raw : String) :
    (run_line cfg (c, s, lg') raw).map (fun st => (st.1, st.2.1))
      = (run_line cfg (c, s, lg) raw).map (fun st => (st.1, st.2.1)) := by
  unfold run_line
  split
  · rfl
  · exact process_parts_logger cfg c s lg lg' _

theorem run_lines_logger (cfg : Config) :
    ∀ (trace : List String) (c : Cache) (s : Stats) (lg lg' : Logger),
      (run_lines cfg trace (c, s, lg')).map (fun st => (st.1, st.2.1))
        = (run_lines cfg trace (c, s, lg)).map (fun st => (st.1, st.2.1)) := by
  intro trace
  induction trace with
  | nil => intro c s lg lg'; rfl
  | cons raw rest ih =>
    intro c s lg lg'
    unfold run_lines
    have h := run_line_logger cfg c s lg lg' raw
    cases h1 : run_line cfg (c, s, lg) raw with
    | error e =>
      rw [h1] at h
      cases h2 : run_line cfg (c, s, lg') raw with
      | error e2 =>
        rw [h2] at h
        simp only [Except.map] at h
        cases h
        rfl
      | ok st2 =>
        rw [h2] at h
        simp only [Except.map] at h
        cases h
    | ok st1 =>
      rw [h1] at h
      cases h2 : run_line cfg (c, s, lg') raw with
      | error e2 =>
        rw [h2] at h
        simp only [Except.map] at h
        cases h
      | ok st2 =>
        rw [h2] at h
        simp only [Except.map, Except.ok.injEq] at h
        have hc : st2.1 = st1.1 := by
          have := congrArg Prod.fst h
          simpa using this
        have hs : st2.2.1 = st1.2.1 := by
          have := congrArg Prod.snd h
          simpa using this
        calc (run_lines cfg rest st2).map (fun st => (st.1, st.2.1))
            = (run_lines cfg rest (st2.1, st2.2.1, st2.2.2)).map (fun st => (st.1, st.2.1)) := by
              rw [show (st2.1, st2.2.1, st2.2.2) = st2 from rfl]
          _ = (run_lines cfg rest (st1.1, st1.2.1, st2.2.2)).map (fun st => (st.1, st.2.1)) := by
              rw [hc, hs]
          _ = (run_lines cfg rest (st1.1, st1.2.1, st1.2.2)).map (fun st => (st.1, st.2.1)) :=
              ih st1.1 st1.2.1 st1.2.2 st2.2.2
          _ = (run_lines cfg rest st1).map (fun st => (st.1, st.2.1)) := by
              rw [show (st1.1, st1.2.1, st1.2.2) = st1 from rfl]

/-- Claim C9: the summary handed back by run_trace, integer counters and
both derived metrics alike, is identical whether or not an event-log
destination is configured; in particular suspect_events and suspect_lines
are counted the same when logging is a no-op. -/
theorem C9_confirmed (cfg : Config) (trace : List String) :
    (run_trace cfg trace true).map (fun r => (r.stats, r.ipki, r.ipc_proxy))
      = (run_trace cfg trace false).map (fun r => (r.stats, r.ipki, r.ipc_proxy)) := by
  unfold run_trace
  have h := run_lines_logger cfg trace (Cache.init cfg) {} (Logger.init false) (Logger.init true)
  cases h1 : run_lines cfg trace (Cache.init cfg, {}, Logger.init false) with
  | error e =>
    rw [h1] at h
    cases h2 : run_lines cfg trace (Cache.init cfg, {}, Logger.init true) with
    | error e2 =>
      rw [h2] at h
      simp only [Except.map] at h
      cases h
      rfl
    | ok st2 =>
      rw [h2] at h
      simp only [Except.map] at h
      cases h
  | ok st1 =>
    rw [h1] at h
    cases h2 : run_lines cfg trace (Cache.init cfg, {}, Logger.init true) with
    | error e2 =>
      rw [h2] at h
      simp only [Except.map] at h
      cases h
    | ok st2 =>
      rw [h2] at h
      simp only [Except.map, Except.ok.injEq] at h
      have hs : st2.2.1 = st1.2.1 := by simpa using congrArg Prod.snd h
      simp only [Except.map]
      rw [hs]

/-
List access facts and findHit characterizations used to track a line
through probe and the write-back in access.
-/

theorem set_getD_self {α : Type} (l : List α) (i : Nat) (a d : α) (h : i < l.length) :
    (l.set i a).getD i d = a := by
  induction l generalizing i with
  | nil => simp at h
  | cons x xs ih =>
    cases i with
    | zero => rfl
    | succ i => exact ih i (by simpa using h)

theorem getD_mem {α : Type} (l : List α) (i : Nat) (d : α) (h : i < l.length) :
    l.getD i d ∈ l := by
  induction l generalizing i with
  | nil => simp at h
  | cons x xs ih =>
    cases i with
    | zero => exact List.mem_cons_self x xs
    | succ i => exact List.mem_cons_of_mem x (ih i (by simpa using h))

theorem getD_of_forall {α : Type} (l : List α) (i : Nat) (d : α) {P : α → Prop}
    (h : ∀ x ∈ l, P x) (hd : P d) : P (l.getD i d) := by
  induction l generalizing i with
  | nil => exact hd
  | cons x xs ih =>
    cases i with
    | zero => exact h x (List.mem_cons_self x xs)
    | succ i => exact ih i (fun y hy => h y (List.mem_cons_of_mem x hy))

theorem findHit_some (tag : Int) : ∀ (ls : List CacheLine) (i : Nat),
    findHit tag ls = some i →
    i < ls.length ∧ (ls.getD i CacheLine.init).tag = tag ∧
      (ls.getD i CacheLine.init).state ≠ MESI.I := by
  intro ls
  induction ls with
  | nil => intro i h; cases h
  | cons x xs ih =>
    intro i h
    unfold findHit at h
    split at h
    · rename_i hcond
      cases h
      exact ⟨by simp, hcond.1, hcond.2⟩
    · cases hf : findHit tag xs with
      | none => rw [hf] at h; cases h
      | some j =>
        rw [hf] at h
        simp only [Option.map] at h
        cases h
        obtain ⟨h1, h2, h3⟩ := ih j hf
        exact ⟨by simpa using Nat.succ_lt_succ h1, h2, h3⟩

theorem findHit_isSome (tag : Int) : ∀ (ls : List CacheLine) (j : Nat),
    j < ls.length →
    (ls.getD j CacheLine.init).tag = tag →
    (ls.getD j CacheLine.init).state ≠ MESI.I →
    (findHit tag ls).isSome = true := by
  intro ls
  induction ls with
  | nil => intro j hj; simp at hj
  | cons x xs ih =>
    intro j hj ht hs
    unfold findHit
    split
    · rfl
    · rename_i hcond
      cases j with
      | zero => exact absurd ⟨ht, hs⟩ hcond
      | succ j =>
        simpa using ih j (by simpa using hj) ht hs

theorem hw_tag (cfg : Config) (l : CacheLine) (core wi : Nat) (s : Stats) (lg : Logger) :
    (access_hit_write cfg l core wi s lg).1.tag = l.tag := by
  unfold access_hit_write
  split
  · dsimp only
    split <;> simp [md_tag]
  · rfl

theorem hr_tag (cfg : Config) (l : CacheLine) (core wi : Nat) (s : Stats) (lg : Logger) :
    (access_hit_read cfg l core wi s lg).1.tag = l.tag := by
  unfold access_hit_read
  split
  · dsimp only
    split <;> simp [md_tag]
  · dsimp only
    split <;> rfl

theorem miss_tag (cfg : Config) (l : CacheLine) (core : Nat) (iw : Bool) (wi : Nat)
    (tag : Int) (s : Stats) (lg : Logger) :
    (access_miss cfg l core iw wi tag s lg).1.tag = tag := by
  unfold access_miss
  cases iw <;> simp only [Bool.false_eq_true, if_false, if_true] <;> rfl

theorem accessLine_tag (cfg : Config) (l : CacheLine) (core : Nat) (iw : Bool) (wi : Nat)
    (tag : Int) (hit : Bool) (s : Stats) (lg : Logger) :
    (accessLine cfg l core iw wi tag hit s lg).1.tag =
      (if hit = true then l.tag else tag) := by
  unfold accessLine
  cases hit <;> cases iw <;> simp only [Bool.false_eq_true, if_false, if_true] <;> split
  all_goals simp [miss_tag, hw_tag, hr_tag]

theorem hw_state (cfg : Config) (l : CacheLine) (core wi : Nat) (s : Stats) (lg : Logger) :
    (access_hit_write cfg l core wi s lg).1.state = MESI.M := by
  unfold access_hit_write
  split
  · dsimp only
    split <;> rfl
  · rfl

theorem hr_state_ne (cfg : Config) (l : CacheLine) (core wi : Nat) (s : Stats) (lg : Logger)
    (h : l.state ≠ MESI.I) :
    (access_hit_read cfg l core wi s lg).1.state ≠ MESI.I := by
  unfold access_hit_read
  split
  · dsimp only
    split <;> simp
  · dsimp only
    split
    · simp
    · simpa using h

theorem miss_state_ne (cfg : Config) (l : CacheLine) (core : Nat) (iw : Bool) (wi : Nat)
    (tag : Int) (s : Stats) (lg : Logger) :
    (access_miss cfg l core iw wi tag s lg).1.state ≠ MESI.I := by
  unfold access_miss
  cases iw <;> simp only [Bool.false_eq_true, if_false, if_true] <;> simp

theorem accessLine_state_ne (cfg : Config) (l : CacheLine) (core : Nat) (iw : Bool) (wi : Nat)
    (tag : Int) (hit : Bool) (s : Stats) (lg : Logger)
    (h : hit = true → l.state ≠ MESI.I) :
    (accessLine cfg l core iw wi tag hit s lg).1.state ≠ MESI.I := by
  rw [accessLine_state]
  cases hit <;> cases iw <;> simp only [Bool.false_eq_true, if_false, if_true]
  · exact miss_state_ne cfg l core false wi tag s lg
  · exact miss_state_ne cfg l core true wi tag s lg
  · exact hr_state_ne cfg l core wi s lg (h rfl)
  · simp [hw_state]

theorem hw_hits (cfg : Config) (l : CacheLine) (core wi : Nat) (s : Stats) (lg : Logger) :
    (access_hit_write cfg l core wi s lg).2.1.hits = s.hits := by
  unfold access_hit_write
  split
  · dsimp only
    split <;> simp [md_hits]
  · rfl

theorem hr_hits (cfg : Config) (l : CacheLine) (core wi : Nat) (s : Stats) (lg : Logger) :
    (access_hit_read cfg l core wi s lg).2.1.hits = s.hits := by
  unfold access_hit_read
  split
  · dsimp only
    split <;> simp [md_hits]
  · rfl

theorem accessLine_hits_of_hit (cfg : Config) (l : CacheLine) (core : Nat) (iw : Bool)
    (wi : Nat) (tag : Int) (s : Stats) (lg : Logger) :
    (accessLine cfg l core iw wi tag true s lg).2.1.hits = s.hits + 1 := by
  unfold accessLine
  cases iw <;> simp only [Bool.false_eq_true, if_false, if_true] <;> split
  all_goals simp [hw_hits, hr_hits]

theorem access_resident (cfg : Config) (c : Cache) (core : Nat) (iw : Bool) (addr : Nat)
    (s : Stats) (lg : Logger)
    (hsets : 0 < cfg.sets) (hassoc : 0 < cfg.assoc)
    (hlen : c.lines.length = cfg.sets)
    (hset : ∀ ls ∈ c.lines, ls.length = cfg.assoc)
    (hcur : ∀ x ∈ c.repl_idx, x < cfg.assoc) :
    (access cfg c core iw addr s lg).1.lines.length = cfg.sets ∧
    ((access cfg c core iw addr s lg).1.lines.getD ((addr / cfg.line_bytes) % cfg.sets)
      []).length = cfg.assoc ∧
    ∃ j < cfg.assoc,
      (((access cfg c core iw addr s lg).1.lines.getD ((addr / cfg.line_bytes) % cfg.sets)
          []).getD j CacheLine.init).tag = ((addr / cfg.line_bytes : Nat) : Int) ∧
      (((access cfg c core iw addr s lg).1.lines.getD ((addr / cfg.line_bytes) % cfg.sets)
          []).getD j CacheLine.init).state ≠ MESI.I := by
  have hidx : (addr / cfg.line_bytes) % cfg.sets < cfg.sets := Nat.mod_lt _ hsets
  have hlenidx : (addr / cfg.line_bytes) % cfg.sets < c.lines.length := by rw [hlen]; exact hidx
  have hlsl : (c.lines.getD ((addr / cfg.line_bytes) % cfg.sets) []).length = cfg.assoc :=
    hset _ (getD_mem _ _ _ hlenidx)
  unfold access probe
  simp only [index_tag]
  cases hf : findHit ((addr / cfg.line_bytes : Nat) : Int)
      (c.lines.getD ((addr / cfg.line_bytes) % cfg.sets) []) with
  | some i =>
    simp only [hf]
    obtain ⟨hi, htag, hstate⟩ := findHit_some _ _ _ hf
    refine ⟨by simp [hlen], ?_, i, ?_, ?_, ?_⟩
    · rw [set_getD_self _ _ _ _ hlenidx]
      simp only [List.length_set]
      exact hlsl
    · rw [← hlsl]; exact hi
    · rw [set_getD_self _ _ _ _ hlenidx, set_getD_self _ _ _ _ hi, accessLine_tag]
      simpa using htag
    · rw [set_getD_self _ _ _ _ hlenidx, set_getD_self _ _ _ _ hi]
      exact accessLine_state_ne cfg _ core iw _ _ true s lg (fun _ => hstate)
  | none =>
    simp only [hf]
    have hw : c.repl_idx.getD ((addr / cfg.line_bytes) % cfg.sets) 0 < cfg.assoc :=
      getD_of_forall _ _ _ hcur hassoc
    have hwls : c.repl_idx.getD ((addr / cfg.line_bytes) % cfg.sets) 0
        < (c.lines.getD ((addr / cfg.line_bytes) % cfg.sets) []).length := by
      rw [hlsl]; exact hw
    refine ⟨by simp [hlen], ?_, c.repl_idx.getD ((addr / cfg.line_bytes) % cfg.sets) 0,
      hw, ?_, ?_⟩
    · rw [set_getD_self _ _ _ _ (by simpa using hlenidx),
        set_getD_self _ _ _ _ hlenidx]
      simp only [List.length_set]
      exact hlsl
    · rw [set_getD_self _ _ _ _ (by simpa using hlenidx),
        set_getD_self _ _ _ _ hlenidx,
        set_getD_self _ _ _ _ (by simpa using hwls),
        set_getD_self _ _ _ _ hwls, accessLine_tag]
      simp
    · rw [set_getD_self _ _ _ _ (by simpa using hlenidx),
        set_getD_self _ _ _ _ hlenidx,
        set_getD_self _ _ _ _ (by simpa using hwls),
        set_getD_self _ _ _ _ hwls]
      exact accessLine_state_ne cfg _ core iw _ _ false s lg (fun h => nomatch h)

theorem access_hits_of_probe_hit (cfg : Config) (c2 : Cache) (core2 : Nat) (iw2 : Bool)
    (addr2 : Nat) (s2 : Stats) (lg2 : Logger)
    (h : (probe cfg c2 addr2).2.2.2 = true) :
    (access cfg c2 core2 iw2 addr2 s2 lg2).2.1.hits = s2.hits + 1 := by
  unfold access
  dsimp only
  rw [h]
  exact accessLine_hits_of_hit cfg _ core2 iw2 _ _ s2 lg2

/-- Claim C10: after any access(core, isWrite, addr) completes on a
well-formed cache (geometry-consistent line matrix, in-range cursors), the
addressed set holds a line with tag addr / line_bytes in a non-Invalid
state, so an immediately following probe of any address with the same line
address hits, and an immediately following access by any core to such an
address increments hits. -/
theorem C10_confirmed (cfg : Config) (c : Cache) (core : Nat) (iw : Bool) (addr addr2 : Nat)
    (s : Stats) (lg : Logger) (core2 : Nat) (iw2 : Bool) (s2 : Stats) (lg2 : Logger)
    (hsets : 0 < cfg.sets) (hassoc : 0 < cfg.assoc)
    (hlen : c.lines.length = cfg.sets)
    (hset : ∀ ls ∈ c.lines, ls.length = cfg.assoc)
    (hcur : ∀ x ∈ c.repl_idx, x < cfg.assoc)
    (hline : addr2 / cfg.line_bytes = addr / cfg.line_bytes) :
    (∃ j < cfg.assoc,
      (((access cfg c core iw addr s lg).1.lines.getD ((addr / cfg.line_bytes) % cfg.sets)
          []).getD j CacheLine.init).tag = ((addr / cfg.line_bytes : Nat) : Int) ∧
      (((access cfg c core iw addr s lg).1.lines.getD ((addr / cfg.line_bytes) % cfg.sets)
          []).getD j CacheLine.init).state ≠ MESI.I) ∧
    (probe cfg (access cfg c core iw addr s lg).1 addr2).2.2.2 = true ∧
    (access cfg (access cfg c core iw addr s lg).1 core2 iw2 addr2 s2 lg2).2.1.hits
      = s2.hits + 1 := by
  obtain ⟨hL, hlen2, j, hj, htag, hstate⟩ :=
    access_resident cfg c core iw addr s lg hsets hassoc hlen hset hcur
  have hjl : j < ((access cfg c core iw addr s lg).1.lines.getD
      ((addr / cfg.line_bytes) % cfg.sets) []).length := by
    rw [hlen2]; exact hj
  have hsome := findHit_isSome ((addr / cfg.line_bytes : Nat) : Int) _ j hjl htag hstate
  have e1 : (index_tag cfg addr2).1 = (addr / cfg.line_bytes) % cfg.sets := by
    simp [index_tag, hline]
  have e2 : ((index_tag cfg addr2).2 : Int) = ((addr / cfg.line_bytes : Nat) : Int) := by
    simp [index_tag, hline]
  have hprobe : (probe cfg (access cfg c core iw addr s lg).1 addr2).2.2.2 = true := by
    unfold probe
    dsimp only
    rw [e1, e2]
    cases hf2 : findHit ((addr / cfg.line_bytes : Nat) : Int)
        ((access cfg c core iw addr s lg).1.lines.getD ((addr / cfg.line_bytes) % cfg.sets)
          []) with
    | none => exact absurd hsome (by rw [hf2]; simp)
    | some k => simp only [hf2]
  exact ⟨⟨j, hj, htag, hstate⟩, hprobe,
    access_hits_of_probe_hit cfg _ core2 iw2 addr2 s2 lg2 hprobe⟩

/-- Witness for C10: with the default configuration, after core 0 writes
address 0, a probe of address 4 (same line) hits and core 1's read of
address 4 is counted as a hit. -/
theorem C10_confirmed_witness :
    (∃ j < (8 : Nat),
      ((((access {} (Cache.init {}) 0 true 0 {} (Logger.init false)).1.lines.getD 0
          []).getD j CacheLine.init).tag = (0 : Int)) ∧
      ((((access {} (Cache.init {}) 0 true 0 {} (Logger.init false)).1.lines.getD 0
          []).getD j CacheLine.init).state ≠ MESI.I)) ∧
    (probe {} (access {} (Cache.init {}) 0 true 0 {} (Logger.init false)).1 4).2.2.2
      = true ∧
    (access {} (access {} (Cache.init {}) 0 true 0 {} (Logger.init false)).1 1 false 4 {}
      (Logger.init false)).2.1.hits = 0 + 1 :=
  C10_confirmed {} (Cache.init {}) 0 true 0 4 {} (Logger.init false) 1 false {}
    (Logger.init false) (by decide) (by decide) (by decide) (by decide) (by decide)
    (by decide)
